import Mathlib

/-!
Shallow embedding of the streaming response normalization core of the
`llm` repository (a unification layer over multiple LLM vendor APIs),
together with theorems settling the frozen specification claims.

The definitions follow the Go source files (`openai.go`, `ollama.go`,
the Gemini provider file, the Claude provider file, the shared type
declarations and the generic streaming consumer).  Go strings are
modelled as Lean strings; Go slices as lists; Go maps keyed by strings
as association lists; fallible paths return `Except`/`Option`; a Go
runtime panic is a distinguished outcome.
-/

namespace LLMSpec

/-! ## Canonical data model (shared type declarations)

`Role` and `FinishReason` are string-backed types in the source
(`type Role string`, `type FinishReason string`); casts of raw vendor
strings into them occur (e.g. the Claude finish-reason fallthrough), so
they are modelled as `String` with named constants. -/

abbrev Role := String

def roleUser : Role := "user"

def roleAssistant : Role := "assistant"

def roleTool : Role := "tool"

abbrev FinishReason := String

def finishReasonToolCalls : FinishReason := "tool_calls"

def finishReasonStop : FinishReason := "stop"

def finishReasonMaxTokens : FinishReason := "max_tokens"

def finishReasonNull : FinishReason := "null"

inductive ContentType
  | text
  | image
deriving DecidableEq, Repr

structure ContentPart where
  type : ContentType
  text : String
  data : String
  mediaType : String
deriving DecidableEq, Repr

structure ToolCallFunction where
  name : String
  arguments : String
deriving DecidableEq, Repr

structure ToolCall where
  id : String
  type : String
  function : ToolCallFunction
deriving DecidableEq, Repr

structure ToolResult where
  toolCallID : String
  functionName : String
  result : String
  isError : Bool
deriving DecidableEq, Repr

structure InputMessage where
  role : Role
  multiContent : List ContentPart
  toolCalls : List ToolCall
  toolResults : List ToolResult
deriving DecidableEq, Repr

structure OutputMessage where
  role : Role
  content : String
  toolCalls : List ToolCall
deriving DecidableEq, Repr

structure Usage where
  promptTokens : Int
  completionTokens : Int
  totalTokens : Int
deriving DecidableEq, Repr

structure Choice where
  index : Int
  message : OutputMessage
  finishReason : FinishReason
deriving DecidableEq, Repr

structure ChatCompletionResponse where
  id : String
  choices : List Choice
  usage : Usage
deriving DecidableEq, Repr

structure ChatCompletionRequest where
  model : String
  messages : List InputMessage
  systemPrompt : Option String
  temperature : ℚ
  maxTokens : Int
  jsonMode : Bool
deriving DecidableEq, Repr

/-- Shared result type for one `Recv()` call of a stream wrapper:
either a chunk, the distinguished end-of-stream (`io.EOF`), an error
value, or a Go runtime panic (`abort`). -/
inductive RecvOut
  | ok (r : ChatCompletionResponse)
  | eof
  | fail (e : String)
  | abort (e : String)
deriving DecidableEq, Repr

/-! ## JSON validity (`isValidJSON` in `openai.go`)

The source checks `json.Unmarshal([]byte(s), &js) == nil` for
`js : map[string]interface{}`.  Go's `Unmarshal` first validates the
entire input as one JSON value (with surrounding whitespace) and then
requires the top-level value to decode into a map: a JSON object
succeeds, and the literal `null` also succeeds (it leaves the map
`nil` with no error); every other top-level kind is a type error.
The grammar below is a fuelled recursive-descent JSON parser. -/

def openBraceChar : Char := Char.ofNat 123

def closeBraceChar : Char := Char.ofNat 125

def jsonWs (c : Char) : Bool :=
  c = ' ' || c = '\t' || c = '\n' || c = '\r'

def skipWs : List Char → List Char
  | [] => []
  | c :: cs => if jsonWs c then skipWs cs else c :: cs

def isHexChar (c : Char) : Bool :=
  c.isDigit || ('a' ≤ c && c ≤ 'f') || ('A' ≤ c && c ≤ 'F')

/-- Consume the body of a JSON string (after the opening quote),
returning the input after the closing quote. -/
def consumeStringBody : Nat → List Char → Option (List Char)
  | 0, _ => none
  | _ + 1, [] => none
  | fuel + 1, c :: cs =>
    if c = '\"' then some cs
    else if c = '\\' then
      match cs with
      | [] => none
      | e :: cs' =>
        if e = '\"' || e = '\\' || e = '/' || e = 'b' || e = 'f' ||
            e = 'n' || e = 'r' || e = 't' then
          consumeStringBody fuel cs'
        else if e = 'u' then
          match cs' with
          | h1 :: h2 :: h3 :: h4 :: rest =>
            if isHexChar h1 && isHexChar h2 && isHexChar h3 && isHexChar h4 then
              consumeStringBody fuel rest
            else none
          | _ => none
        else none
    else if c.toNat < 32 then none
    else consumeStringBody fuel cs

/-- Drop a maximal run of decimal digits. -/
def dropDigits : List Char → List Char
  | [] => []
  | c :: cs => if c.isDigit then dropDigits cs else c :: cs

/-- Consume the digits of a JSON integer part after an optional sign:
either a single `0` or a nonzero digit followed by more digits. -/
def consumeIntDigits : List Char → Option (List Char)
  | [] => none
  | c :: cs =>
    if c = '0' then some cs
    else if c.isDigit then some (dropDigits cs)
    else none

/-- Consume an optional JSON fraction part. -/
def consumeFrac : List Char → Option (List Char)
  | [] => some []
  | c :: cs =>
    if c = '.' then
      match cs with
      | d :: ds => if d.isDigit then some (dropDigits ds) else none
      | [] => none
    else some (c :: cs)

/-- Consume an optional JSON exponent part. -/
def consumeExp : List Char → Option (List Char)
  | [] => some []
  | c :: cs =>
    if c = 'e' || c = 'E' then
      match cs with
      | s :: ds =>
        if s = '+' || s = '-' then
          match ds with
          | d :: ds' => if d.isDigit then some (dropDigits ds') else none
          | [] => none
        else if s.isDigit then some (dropDigits ds)
        else none
      | [] => none
    else some (c :: cs)

/-- Consume a JSON number (with optional leading minus sign). -/
def consumeNumber (cs : List Char) : Option (List Char) := do
  let cs ← match cs with
    | c :: rest => if c = '-' then pure rest else pure (c :: rest)
    | [] => none
  let cs ← consumeIntDigits cs
  let cs ← consumeFrac cs
  consumeExp cs

mutual

/-- Consume one JSON value (leading whitespace allowed). -/
def consumeValue : Nat → List Char → Option (List Char)
  | 0, _ => none
  | fuel + 1, cs =>
    match skipWs cs with
    | [] => none
    | c :: rest =>
      if c = '\"' then consumeStringBody fuel rest
      else if c = openBraceChar then
        match skipWs rest with
        | d :: rest' =>
          if d = closeBraceChar then some rest'
          else consumeMembers fuel (d :: rest')
        | [] => none
      else if c = '[' then
        match skipWs rest with
        | d :: rest' =>
          if d = ']' then some rest'
          else consumeElements fuel (d :: rest')
        | [] => none
      else if c = 'n' then
        match rest with
        | 'u' :: 'l' :: 'l' :: rest' => some rest'
        | _ => none
      else if c = 't' then
        match rest with
        | 'r' :: 'u' :: 'e' :: rest' => some rest'
        | _ => none
      else if c = 'f' then
        match rest with
        | 'a' :: 'l' :: 's' :: 'e' :: rest' => some rest'
        | _ => none
      else if c = '-' || c.isDigit then consumeNumber (c :: rest)
      else none

/-- Consume the members of a JSON object after at least one member is
known to follow, up to and including the closing brace. -/
def consumeMembers : Nat → List Char → Option (List Char)
  | 0, _ => none
  | fuel + 1, cs => do
    let cs ← match skipWs cs with
      | k :: rest => if k = '\"' then consumeStringBody fuel rest else none
      | [] => none
    let cs ← match skipWs cs with
      | k :: rest => if k = ':' then some rest else none
      | [] => none
    let cs ← consumeValue fuel cs
    match skipWs cs with
    | k :: rest =>
      if k = ',' then consumeMembers fuel rest
      else if k = closeBraceChar then some rest
      else none
    | [] => none

/-- Consume the elements of a JSON array after at least one element is
known to follow, up to and including the closing bracket. -/
def consumeElements : Nat → List Char → Option (List Char)
  | 0, _ => none
  | fuel + 1, cs => do
    let cs ← consumeValue fuel cs
    match skipWs cs with
    | k :: rest =>
      if k = ',' then consumeElements fuel rest
      else if k = ']' then some rest
      else none
    | [] => none

end

/-- Whether `s` is one syntactically well-formed JSON value (with
surrounding whitespace) and nothing else. -/
def jsonWellFormed (s : String) : Bool :=
  match consumeValue (2 * s.data.length + 16) s.data with
  | some rest => (skipWs rest).isEmpty
  | none => false

/-- `isValidJSON` from `openai.go`: whether
`json.Unmarshal([]byte(s), &js)` with `js : map[string]interface{}`
returns a nil error.  This holds exactly when `s` is well-formed JSON
whose top-level value is an object, or the literal `null` (which Go
decodes into a nil map without error). -/
def isValidJSON (s : String) : Bool :=
  match skipWs s.data with
  | [] => false
  | c :: rest =>
    if c = openBraceChar then jsonWellFormed s
    else
      match c :: rest with
      | 'n' :: 'u' :: 'l' :: 'l' :: rest' =>
        jsonWellFormed s && (skipWs rest').isEmpty
      | _ => false

/-- Modelled from the spec: "the accumulated `argumentsJSON` is tested
for parsing as a JSON object" — acceptance of exactly a (well-formed)
JSON object at top level, used to compare the claim's wording against
the source's `isValidJSON`. -/
def specParsesAsJSONObject (s : String) : Bool :=
  match skipWs s.data with
  | [] => false
  | c :: _ => if c = openBraceChar then jsonWellFormed s else false

/-! ## Gemini provider (`geminiStreamWrapper`, `setModelConfig`)

The wrapper pulls `genai` events from an iterator.  An event carries a
list of candidates; a candidate carries content parts (text or function
calls whose arguments the wrapper re-marshals to JSON) and a vendor
finish reason (an enumeration in the `genai` SDK).  Byte indices and
character indices agree at the old-accumulation boundary used by the
wrapper (`accumulatedText[oldLen:]` with `oldLen = len(accumulatedText)`
slices off exactly the newly appended text), so text is modelled as
Lean strings with a character-based suffix. -/

def stringDropChars (s : String) (n : Nat) : String := ⟨s.data.drop n⟩

inductive GeminiPart
  | text (s : String)
  | functionCall (name : String) (marshaledArgs : Option String)
deriving DecidableEq, Repr

inductive GenaiFinishReason
  | unspecified
  | stop
  | maxTokens
  | safety
  | other (n : Nat)
deriving DecidableEq, Repr

/-- Vendor finish-reason values the wrapper's switch recognizes. -/
def GenaiFinishReason.known : GenaiFinishReason → Bool
  | .unspecified => true
  | .stop => true
  | .maxTokens => true
  | .safety => true
  | .other _ => false

structure GeminiCandidate where
  parts : List GeminiPart
  finishReason : GenaiFinishReason
deriving DecidableEq, Repr

structure GeminiEvent where
  candidates : List GeminiCandidate
deriving DecidableEq, Repr

/-- What one pull of the `genai` iterator yields: an event, the
`iterator.Done` sentinel, or an error. -/
inductive GeminiItem
  | nextEvent (e : GeminiEvent)
  | iterDone
  | iterFail (e : String)
deriving DecidableEq, Repr

structure GeminiState where
  iterOpen : Bool
  done : Bool
  accumulatedText : String
  accumulatedToolCalls : List ToolCall
deriving DecidableEq, Repr

def initGeminiState : GeminiState :=
  { iterOpen := true, done := false, accumulatedText := "", accumulatedToolCalls := [] }

/-- Step 1 of `Recv`: concatenation of the text parts of a candidate. -/
def geminiNewText (parts : List GeminiPart) : String :=
  parts.foldl
    (fun acc p =>
      match p with
      | .text s => acc ++ s
      | .functionCall _ _ => acc)
    ""

/-- Step 1 of `Recv`: function-call parts whose arguments marshal
successfully become tool calls (empty ID, type `"function"`). -/
def geminiNewToolCalls (parts : List GeminiPart) : List ToolCall :=
  parts.foldl
    (fun acc p =>
      match p with
      | .text _ => acc
      | .functionCall n (some a) =>
        acc ++ [{ id := "", type := "function", function := { name := n, arguments := a } }]
      | .functionCall _ none => acc)
    []

/-- Step 3 of `Recv`, one iteration: a new call is kept only if no
accumulated call has the same function name and arguments. -/
def geminiMergeStep (st : List ToolCall × List ToolCall) (tc : ToolCall) :
    List ToolCall × List ToolCall :=
  let isNew := !st.2.any (fun e =>
    e.function.name = tc.function.name && e.function.arguments = tc.function.arguments)
  if isNew then (st.1 ++ [tc], st.2 ++ [tc]) else st

/-- Step 3 of `Recv`: returns (delta calls, updated accumulated
calls). -/
def geminiMergeCalls (accum news : List ToolCall) : List ToolCall × List ToolCall :=
  news.foldl geminiMergeStep ([], accum)

/-- Step 4 of `Recv`: canonical finish reason and the `done` flag; an
unrecognized vendor value hits the `default` branch, which panics. -/
inductive GeminiFinishOutcome
  | normal (fr : FinishReason) (dn : Bool)
  | unknownAbort (msg : String)
deriving DecidableEq, Repr

def geminiFinish (raw : GenaiFinishReason) (accumCalls : List ToolCall) : GeminiFinishOutcome :=
  match raw with
  | .stop =>
    if accumCalls.length > 0 then .normal finishReasonToolCalls true
    else .normal finishReasonStop true
  | .safety => .normal finishReasonStop true
  | .maxTokens => .normal finishReasonMaxTokens true
  | .unspecified => .normal finishReasonNull false
  | .other n => .unknownAbort ("unknown finish reason: " ++ toString n)

def zeroUsage : Usage := { promptTokens := 0, completionTokens := 0, totalTokens := 0 }

/-- The empty partial update returned when an event has no candidates. -/
def geminiEmptyDelta : ChatCompletionResponse :=
  { id := ""
    choices := [{ index := 0
                  message := { role := roleAssistant, content := "", toolCalls := [] }
                  finishReason := finishReasonNull }]
    usage := zeroUsage }

/-- `geminiStreamWrapper.Recv`, as a state transition on the wrapper
for one iterator pull. -/
def geminiRecvItem (s : GeminiState) (it : GeminiItem) : GeminiState × RecvOut :=
  if s.done then (s, .eof)
  else
    match it with
    | .iterDone => (s, .eof)
    | .iterFail e => (s, .fail e)
    | .nextEvent ev =>
      match ev.candidates with
      | [] => (s, .ok geminiEmptyDelta)
      | cand :: _ =>
        let newText := geminiNewText cand.parts
        let newCalls := geminiNewToolCalls cand.parts
        let oldLen := s.accumulatedText.length
        let newAccum := s.accumulatedText ++ newText
        let deltaContent :=
          if newAccum.length > oldLen then stringDropChars newAccum oldLen else ""
        let merged := geminiMergeCalls s.accumulatedToolCalls newCalls
        match geminiFinish cand.finishReason merged.2 with
        | .unknownAbort m =>
          ({ s with accumulatedText := newAccum, accumulatedToolCalls := merged.2 }, .abort m)
        | .normal fr dn =>
          ({ s with accumulatedText := newAccum, accumulatedToolCalls := merged.2, done := dn },
            .ok { id := ""
                  choices := [{ index := 0
                                message := { role := roleAssistant
                                             content := deltaContent
                                             toolCalls := merged.1 }
                                finishReason := fr }]
                  usage := zeroUsage })

/-- A run of successive `Recv` calls; the `k`-th list entry is what the
iterator would deliver at the `k`-th call (never pulled once the
wrapper is done). -/
def geminiRun (s : GeminiState) : List GeminiItem → GeminiState × List RecvOut
  | [] => (s, [])
  | it :: its =>
    let step := geminiRecvItem s it
    let rest := geminiRun step.1 its
    (rest.1, step.2 :: rest.2)

/-- `geminiStreamWrapper.Close`. -/
def geminiClose (s : GeminiState) : GeminiState × Option String :=
  ({ s with iterOpen := false, done := true }, none)

/-- An item that cannot hit the panicking `default` finish-reason
branch. -/
def geminiItemOk : GeminiItem → Bool
  | .nextEvent ev =>
    match ev.candidates with
    | [] => true
    | c :: _ => c.finishReason.known
  | .iterDone => true
  | .iterFail _ => true

/-- A successful event that does not terminate the turn: either no
candidates, or a first candidate whose vendor finish reason is
`Unspecified`. -/
def geminiNonterminalOk : GeminiItem → Bool
  | .nextEvent ev =>
    match ev.candidates with
    | [] => true
    | c :: _ =>
      match c.finishReason with
      | .unspecified => true
      | _ => false
  | .iterDone => false
  | .iterFail _ => false

/-- A successful event whose first candidate carries a terminal vendor
finish reason. -/
def geminiTerminalEvent : GeminiItem → Bool
  | .nextEvent ev =>
    match ev.candidates with
    | [] => false
    | c :: _ =>
      match c.finishReason with
      | .stop => true
      | .safety => true
      | .maxTokens => true
      | _ => false
  | .iterDone => false
  | .iterFail _ => false

/-- Delta text carried by a list of choices. -/
def choicesText : List Choice → String
  | [] => ""
  | c :: cs => c.message.content ++ choicesText cs

/-- Delta text carried by one `Recv` outcome. -/
def deltaText : RecvOut → String
  | .ok r => choicesText r.choices
  | _ => ""

/-- In-order concatenation of the delta contents of a run's outputs. -/
def concatDeltas : List RecvOut → String
  | [] => ""
  | o :: os => deltaText o ++ concatDeltas os

/-- `setModelConfig` temperature policy: a strictly positive requested
temperature is forwarded; otherwise the minimal positive `float32`
(`math.SmallestNonzeroFloat32` = 2^-149) is substituted.  `float32`
values are modelled by the rationals they denote; the comparison and
the forwarding are exact. -/
def smallestNonzeroFloat32 : ℚ := 1 / 2 ^ 149

def setModelConfigTemperature (t : ℚ) : ℚ :=
  if t > 0 then t else smallestNonzeroFloat32

/-! ## OpenAI provider (`openAIStreamWrapper`, converters)

The wrapper buffers tool-call argument fragments in a map keyed by
call id (`toolCallBuffer`, an association list here) plus a "current"
pointer for fragments that omit the id.  In Go the current pointer
aliases the map entry with the same id (entries are only created with
their key as id and the id field is never mutated), so every write to
a buffer entry is mirrored into `currentToolCall` when the ids match,
and vice versa. -/

structure OpenAIDeltaToolCall where
  id : String
  type : String
  function : ToolCallFunction
deriving DecidableEq, Repr

structure OpenAIStreamChoice where
  index : Int
  deltaRole : String
  deltaContent : String
  deltaToolCalls : List OpenAIDeltaToolCall
  finishReason : String
deriving DecidableEq, Repr

structure OpenAIChunk where
  id : String
  choices : List OpenAIStreamChoice
deriving DecidableEq, Repr

structure OpenAIWrapperState where
  currentToolCall : Option ToolCall
  toolCallBuffer : List (String × ToolCall)
deriving DecidableEq, Repr

def initOpenAIWrapperState : OpenAIWrapperState :=
  { currentToolCall := none, toolCallBuffer := [] }

def bufLookup (b : List (String × ToolCall)) (k : String) : Option ToolCall :=
  match b.find? (fun p => p.1 = k) with
  | some p => some p.2
  | none => none

def bufSet : List (String × ToolCall) → String → ToolCall → List (String × ToolCall)
  | [], k, v => [(k, v)]
  | (k', v') :: rest, k, v =>
    if k' = k then (k, v) :: rest else (k', v') :: bufSet rest k v

def bufRemove : List (String × ToolCall) → String → List (String × ToolCall)
  | [], _ => []
  | (k', v') :: rest, k =>
    if k' = k then bufRemove rest k else (k', v') :: bufRemove rest k

/-- Mirror a write through the Go pointer aliasing: if the current
pointer designates the buffer entry with key `k`, it sees the write. -/
def syncCurrent (cur : Option ToolCall) (k : String) (v : ToolCall) : Option ToolCall :=
  match cur with
  | some c => if c.id = k then some v else some c
  | none => none

/-- The shared tail of the fragment loop body: optional name update,
optional argument append, completion test, emission and buffer/current
cleanup (`openai.go`, the code below the buffer lookup/creation). -/
def openAIAccumulate (st : OpenAIWrapperState) (entry : ToolCall) (tc : OpenAIDeltaToolCall) :
    OpenAIWrapperState × List ToolCall :=
  let entry1 :=
    if tc.function.name = "" then entry
    else { entry with function := { entry.function with name := tc.function.name } }
  let st1 : OpenAIWrapperState :=
    { currentToolCall := syncCurrent st.currentToolCall tc.id entry1
      toolCallBuffer := bufSet st.toolCallBuffer tc.id entry1 }
  if tc.function.arguments = "" then (st1, [])
  else
    let entry2 :=
      { entry1 with function :=
          { entry1.function with arguments := entry1.function.arguments ++ tc.function.arguments } }
    let st2 : OpenAIWrapperState :=
      { currentToolCall := syncCurrent st1.currentToolCall tc.id entry2
        toolCallBuffer := bufSet st1.toolCallBuffer tc.id entry2 }
    if isValidJSON entry2.function.arguments then
      ({ currentToolCall :=
           match st2.currentToolCall with
           | some c => if c.id = tc.id then none else some c
           | none => none
         toolCallBuffer := bufRemove st2.toolCallBuffer tc.id }, [entry2])
    else (st2, [])

/-- One iteration of the fragment loop of `openAIStreamWrapper.Recv`
for one delta tool-call fragment; returns the updated wrapper state and
the calls this fragment completed (emitted into the delta). -/
def processDeltaToolCall (st : OpenAIWrapperState) (tc : OpenAIDeltaToolCall) :
    OpenAIWrapperState × List ToolCall :=
  match bufLookup st.toolCallBuffer tc.id with
  | some entry => openAIAccumulate st entry tc
  | none =>
    if tc.id = "" then
      -- continuation fragment without an id: append to the open buffer
      match st.currentToolCall with
      | some cur =>
        if tc.function.arguments = "" then (st, [])
        else
          let cur' :=
            { cur with function :=
                { cur.function with arguments := cur.function.arguments ++ tc.function.arguments } }
          if isValidJSON cur'.function.arguments then
            ({ currentToolCall := none
               toolCallBuffer := bufRemove (bufSet st.toolCallBuffer cur.id cur') cur.id }, [cur'])
          else
            ({ currentToolCall := some cur'
               toolCallBuffer := bufSet st.toolCallBuffer cur.id cur' }, [])
      | none => (st, [])
    else
      let created : ToolCall :=
        { id := tc.id, type := tc.type, function := { name := tc.function.name, arguments := "" } }
      openAIAccumulate
        { currentToolCall := some created
          toolCallBuffer := bufSet st.toolCallBuffer tc.id created }
        created tc

/-- Successive fragments fed to the wrapper, with the per-fragment
emission lists. -/
def runFragments (st : OpenAIWrapperState) :
    List OpenAIDeltaToolCall → OpenAIWrapperState × List (List ToolCall)
  | [] => (st, [])
  | f :: fs =>
    let step := processDeltaToolCall st f
    let rest := runFragments step.1 fs
    (rest.1, step.2 :: rest.2)

/-- `convertFromOpenAIFinishReason` from `openai.go`; the `openai` SDK
finish reasons are string constants. -/
def convertFromOpenAIFinishReason (reason : String) : Except String FinishReason :=
  if reason = "tool_calls" then .ok finishReasonToolCalls
  else if reason = "stop" then .ok finishReasonStop
  else if reason = "length" then .ok finishReasonMaxTokens
  else if reason = "function_call" then .ok finishReasonToolCalls
  else if reason = "content_filter" then .ok finishReasonStop
  else if reason = "null" then .ok finishReasonNull
  else if reason = "" then .ok finishReasonNull
  else .error ("default case reason: " ++ reason)

/-- One choice of an OpenAI stream chunk inside `Recv`: fragments are
folded through the buffer, then the finish reason is converted (an
unknown value makes `Recv` return an error). -/
def openAIProcessChoice (st : OpenAIWrapperState) (c : OpenAIStreamChoice) :
    OpenAIWrapperState × Except String Choice :=
  let folded := c.deltaToolCalls.foldl
    (fun (acc : OpenAIWrapperState × List ToolCall) tc =>
      let r := processDeltaToolCall acc.1 tc
      (r.1, acc.2 ++ r.2))
    (st, [])
  match convertFromOpenAIFinishReason c.finishReason with
  | .error e => (folded.1, .error e)
  | .ok fr =>
    (folded.1,
      .ok { index := c.index
            message := { role := c.deltaRole, content := c.deltaContent, toolCalls := folded.2 }
            finishReason := fr })

def openAIRecvChoices (st : OpenAIWrapperState) :
    List OpenAIStreamChoice → OpenAIWrapperState × Except String (List Choice)
  | [] => (st, .ok [])
  | c :: cs =>
    let r := openAIProcessChoice st c
    match r.2 with
    | .error e => (r.1, .error e)
    | .ok ch =>
      let rest := openAIRecvChoices r.1 cs
      match rest.2 with
      | .error e => (rest.1, .error e)
      | .ok chs => (rest.1, .ok (ch :: chs))

/-- `openAIStreamWrapper.Recv` on one successfully received vendor
chunk. -/
def openAIRecvChunk (st : OpenAIWrapperState) (chunk : OpenAIChunk) :
    OpenAIWrapperState × Except String ChatCompletionResponse :=
  let r := openAIRecvChoices st chunk.choices
  match r.2 with
  | .error e => (r.1, .error e)
  | .ok chs => (r.1, .ok { id := chunk.id, choices := chs, usage := zeroUsage })

/-! ## OpenAI request-side converters (`convertToOpenAIMessages`) -/

structure OpenAIChatMessagePart where
  type : String
  text : String
  imageURL : String
deriving DecidableEq, Repr

def convertOpenAIMessageContent (content : List ContentPart) : List OpenAIChatMessagePart :=
  content.foldl
    (fun acc part =>
      match part.type with
      | .text => acc ++ [{ type := "text", text := part.text, imageURL := "" }]
      | .image =>
        acc ++ [{ type := "image_url", text := ""
                  imageURL := "data:" ++ part.mediaType ++ ";base64," ++ part.data }])
    []

def convertToOpenAIToolsCalls (tools : List ToolCall) : List ToolCall :=
  tools.map (fun t =>
    { id := t.id, type := "function"
      function := { name := t.function.name, arguments := t.function.arguments } })

def convertRoleToOpenAI (r : Role) : String :=
  if r = roleUser then "user"
  else if r = roleAssistant then "assistant"
  else if r = roleTool then "tool"
  else ""

structure OpenAIChatMessage where
  role : String
  content : String
  toolCallID : String
  multiContent : List OpenAIChatMessagePart
  toolCalls : List ToolCall
deriving DecidableEq, Repr

/-- One message of `convertToOpenAIMessages`: a tool-role message reads
`msg.ToolResults[0]` unconditionally, which panics (`none`) when the
sequence is empty. -/
def convertToOpenAIMessage (msg : InputMessage) : Option OpenAIChatMessage :=
  let role := convertRoleToOpenAI msg.role
  if msg.role = roleTool then
    match msg.toolResults with
    | [] => none
    | tr :: _ =>
      some { role := role, content := tr.result, toolCallID := tr.toolCallID
             multiContent := [], toolCalls := [] }
  else
    some { role := role, content := "", toolCallID := ""
           multiContent := convertOpenAIMessageContent msg.multiContent
           toolCalls := convertToOpenAIToolsCalls msg.toolCalls }

def convertToOpenAIMessages : List InputMessage → Option (List OpenAIChatMessage)
  | [] => some []
  | m :: ms =>
    match convertToOpenAIMessage m with
    | none => none
    | some om =>
      match convertToOpenAIMessages ms with
      | none => none
      | some oms => some (om :: oms)

/-! ## Ollama provider (`ollama.go`) -/

structure OllamaChatResponse where
  role : String
  content : String
  done : Bool
  doneReason : String
  promptEvalCount : Int
  evalCount : Int
deriving DecidableEq, Repr

structure OllamaStreamState where
  done : Bool
  err : Option String
deriving DecidableEq, Repr

def initOllamaStreamState : OllamaStreamState := { done := false, err := none }

/-- What the `select` inside `ollamaStreamWrapper.Recv` observes:
context cancellation, the response channel closing, or an item. -/
inductive OllamaInput
  | ctxDone (e : String)
  | chanClosed
  | chanItem (r : OllamaChatResponse)
deriving DecidableEq, Repr

/-- `ChatCompletionResponse{}` — the zero value returned by `Recv` for
an event with empty content: no choices at all. -/
def ollamaEmptyResponse : ChatCompletionResponse :=
  { id := "", choices := [], usage := zeroUsage }

/-- `ollamaStreamWrapper.Recv`. -/
def ollamaRecv (s : OllamaStreamState) (inp : OllamaInput) : OllamaStreamState × RecvOut :=
  if s.done then (s, .eof)
  else
    match inp with
    | .ctxDone e => (s, .fail e)
    | .chanClosed =>
      ({ s with done := true },
        match s.err with
        | some e => .fail e
        | none => .eof)
    | .chanItem r =>
      if r.content = "" then (s, .ok ollamaEmptyResponse)
      else
        ({ s with done := if r.done then true else s.done },
          .ok { id := ""
                choices := [{ index := 0
                              message := { role := r.role, content := r.content, toolCalls := [] }
                              finishReason := if r.done then finishReasonStop else finishReasonNull }]
                usage := { promptTokens := r.promptEvalCount
                           completionTokens := r.evalCount
                           totalTokens := r.promptEvalCount + r.evalCount } })

def ollamaRun (s : OllamaStreamState) : List OllamaInput → OllamaStreamState × List RecvOut
  | [] => (s, [])
  | i :: is =>
    let step := ollamaRecv s i
    let rest := ollamaRun step.1 is
    (rest.1, step.2 :: rest.2)

/-- `ollamaStreamWrapper.Close`. -/
def ollamaClose (s : OllamaStreamState) : OllamaStreamState × Option String :=
  ({ s with done := true }, none)

/-- The finish-reason mapping of `OllamaLLM.CreateChatCompletion`: the
switch on `DoneReason` maps anything unrecognized to `stop`. -/
def ollamaDoneReasonToFinishReason (doneReason : String) : FinishReason :=
  if doneReason = "stop" then finishReasonStop
  else if doneReason = "length" then finishReasonMaxTokens
  else finishReasonStop

/-! ## Claude provider (`claudeStreamWrapper.Close`,
`convertFromClaudeFinishReason`) -/

/-- `convertFromClaudeFinishReason`: the `anthropic` stop reasons are
string constants; a value outside the switch falls through to
`FinishReason(reason)` — the raw vendor string. -/
def convertFromClaudeFinishReason (reason : String) : FinishReason :=
  if reason = "end_turn" then finishReasonStop
  else if reason = "tool_use" then finishReasonToolCalls
  else if reason = "max_tokens" then finishReasonMaxTokens
  else if reason = "stop_sequence" then finishReasonStop
  else reason

structure ClaudeWrapperState where
  done : Bool
  eventsOpen : Bool
  errOpen : Bool
  cancelled : Bool
deriving DecidableEq, Repr

def initClaudeWrapperState : ClaudeWrapperState :=
  { done := false, eventsOpen := true, errOpen := true, cancelled := false }

/-- Closing a Go channel: panics (`none`) if it is already closed. -/
def closeChan (isOpen : Bool) : Option Bool :=
  if isOpen then some false else none

/-- `claudeStreamWrapper.Close`: under the mutex, an already-done
wrapper returns `nil` immediately; otherwise it cancels the context and
closes both channels.  `none` models a Go runtime panic. -/
def claudeClose (s : ClaudeWrapperState) : Option (ClaudeWrapperState × Option String) :=
  if s.done then some (s, none)
  else
    match closeChan s.eventsOpen, closeChan s.errOpen with
    | some e1, some e2 =>
      some ({ done := true, eventsOpen := e1, errOpen := e2, cancelled := true }, none)
    | _, _ => none

/-! ## Provider gates (model allow-lists, checked before any network
call in `CreateChatCompletion` / `CreateChatCompletionStream`) -/

def openAIIsSupported (m : String) : Bool :=
  m = "o3-mini" || m = "gpt-4o" || m = "gpt-4o-mini"

def geminiIsSupported (m : String) : Bool :=
  m = "gemini-2.0-flash" || m = "gemini-1.5-flash" || m = "gemini-1.5-flash-8b" ||
    m = "gemini-1.5-pro" || m = "gemini-2.0-flash-lite-001"

def claudeIsSupported (m : String) : Bool :=
  m = "claude-2.0" || m = "claude-2.1" || m = "claude-3-opus-20240229" ||
    m = "claude-3-sonnet-20240229" || m = "claude-3-5-sonnet-20240620" ||
    m = "claude-3-5-sonnet-20241022" || m = "claude-3-5-sonnet-latest" ||
    m = "claude-3-haiku-20240307" || m = "claude-3-5-haiku-latest" ||
    m = "claude-3-5-haiku-20241022"

/-- Outcome of the local phase of a create call: either the local
"unsupported model" rejection, or the function proceeds to issue the
vendor request (returning a stream handle / response from the wire). -/
inductive CreateResult
  | failure (e : String)
  | issued
deriving DecidableEq, Repr

def openAICreateChatCompletionGate (req : ChatCompletionRequest) : CreateResult :=
  if openAIIsSupported req.model then .issued
  else .failure ("model " ++ req.model ++ " is not available")

def openAICreateChatCompletionStreamGate (req : ChatCompletionRequest) : CreateResult :=
  if openAIIsSupported req.model then .issued
  else .failure ("model " ++ req.model ++ " is not available")

def geminiCreateChatCompletionGate (req : ChatCompletionRequest) : CreateResult :=
  if geminiIsSupported req.model then .issued
  else .failure ("model " ++ req.model ++ " is not supported")

def geminiCreateChatCompletionStreamGate (req : ChatCompletionRequest) : CreateResult :=
  if geminiIsSupported req.model then .issued
  else .failure ("model " ++ req.model ++ " is not supported")

def claudeCreateChatCompletionGate (req : ChatCompletionRequest) : CreateResult :=
  if claudeIsSupported req.model then .issued
  else .failure ("model " ++ req.model ++ " is not available")

def claudeCreateChatCompletionStreamGate (req : ChatCompletionRequest) : CreateResult :=
  if claudeIsSupported req.model then .issued
  else .failure ("model " ++ req.model ++ " is not available")

/-- `OllamaLLM.CreateChatCompletion` performs no model validation. -/
def ollamaCreateChatCompletionGate (_req : ChatCompletionRequest) : CreateResult :=
  .issued

/-- `OllamaLLM.CreateChatCompletionStream` performs no model
validation: it builds the vendor request, starts the worker and returns
the stream wrapper for any model. -/
def ollamaCreateChatCompletionStreamGate (_req : ChatCompletionRequest) : CreateResult :=
  .issued

/-! ## Generic streaming consumer (`StreamChatCompletion`) -/

inductive HandlerEvent
  | onStart
  | onToken (s : String)
  | onToolCall (tc : ToolCall)
  | onComplete (m : OutputMessage)
  | onError (e : String)
  | closed
deriving DecidableEq, Repr

/-- The per-chunk choice loop of `StreamChatCompletion`: token event
and text accumulation, tool-call accumulation, `OnToolCall` on a
`tool_calls` finish (indexing the last accumulated call — a Go panic,
`none`, when the list is empty), `OnComplete` and loop exit on any
non-null finish.  Returns the updated accumulator, the tool-call list,
the handler events, and whether the driver returned. -/
def processChunkChoices (acc : String) (tcs : List ToolCall) :
    List Choice → Option (String × List ToolCall × List HandlerEvent × Bool)
  | [] => some (acc, tcs, [], false)
  | c :: rest =>
    let tokenEvs :=
      if c.message.content.length > 0 then [HandlerEvent.onToken c.message.content] else []
    let acc' := if c.message.content.length > 0 then acc ++ c.message.content else acc
    let tcs' := tcs ++ c.message.toolCalls
    if c.finishReason = finishReasonToolCalls then
      match tcs'.getLast? with
      | none => none
      | some lastCall =>
        some (acc', tcs',
          tokenEvs ++ [HandlerEvent.onToolCall lastCall,
            HandlerEvent.onComplete { role := "assistant", content := acc', toolCalls := tcs' }],
          true)
    else if c.finishReason = finishReasonNull then
      match processChunkChoices acc' tcs' rest with
      | none => none
      | some (a, t, evs, fin) => some (a, t, tokenEvs ++ evs, fin)
    else
      some (acc', tcs',
        tokenEvs ++
          [HandlerEvent.onComplete { role := "assistant", content := acc', toolCalls := tcs' }],
        true)

/-- The receive loop of `StreamChatCompletion` over the successive
`Recv` results; the deferred `stream.Close()` is recorded as a final
`closed` event on every exit path.  `none` models a Go panic. -/
def driveLoop (acc : String) (tcs : List ToolCall) : List RecvOut → Option (List HandlerEvent)
  | [] => some []
  | RecvOut.eof :: _ => some [HandlerEvent.closed]
  | RecvOut.fail e :: _ => some [HandlerEvent.onError e, HandlerEvent.closed]
  | RecvOut.abort _ :: _ => none
  | RecvOut.ok r :: rest =>
    match processChunkChoices acc tcs r.choices with
    | none => none
    | some (_, _, evs, true) => some (evs ++ [HandlerEvent.closed])
    | some (a, t, evs, false) =>
      match driveLoop a t rest with
      | none => none
      | some evs' => some (evs ++ evs')

/-- `StreamChatCompletion` after a successful stream creation:
`OnStart` fires once, before the first `Recv`. -/
def streamChatCompletionTrace (results : List RecvOut) : Option (List HandlerEvent) :=
  match driveLoop "" [] results with
  | none => none
  | some evs => some (HandlerEvent.onStart :: evs)

/-! ## Concrete inputs used by witnesses and counterexamples -/

def unknownModelRequest : ChatCompletionRequest :=
  { model := "unknown-model-xyz", messages := [], systemPrompt := none
    temperature := 0, maxTokens := 0, jsonMode := false }

/-- A completed `get_weather` tool call with full JSON arguments. -/
def c3EmittedCall : ToolCall :=
  { id := "call_1", type := "function"
    function := { name := "get_weather"
                  arguments := "\x7b\"location\": \"Paris\"\x7d" } }

def c3Fragment : OpenAIDeltaToolCall :=
  { id := "call_1", type := "function"
    function := { name := "get_weather"
                  arguments := "\x7b\"location\": \"Paris\"\x7d" } }

def c3Chunk1 : OpenAIChunk :=
  { id := "r1"
    choices := [{ index := 0, deltaRole := "assistant", deltaContent := ""
                  deltaToolCalls := [c3Fragment], finishReason := "" }] }

def c3Chunk2 : OpenAIChunk :=
  { id := "r1"
    choices := [{ index := 0, deltaRole := "", deltaContent := ""
                  deltaToolCalls := [], finishReason := "stop" }] }

/-- An Ollama final event: turn complete (`Done = true`) with empty
content. -/
def c5FinalOllamaEvent : OllamaChatResponse :=
  { role := "assistant", content := "", done := true, doneReason := "stop"
    promptEvalCount := 1, evalCount := 2 }

def c10ToolMessage : InputMessage :=
  { role := roleTool, multiContent := [], toolCalls := []
    toolResults := [{ toolCallID := "123", functionName := "get_weather"
                      result := "15 degrees", isError := false }] }

def c10EmptyToolMessage : InputMessage :=
  { role := roleTool, multiContent := [], toolCalls := [], toolResults := [] }

def geminiHelloItem : GeminiItem :=
  .nextEvent { candidates := [{ parts := [.text "Hello"], finishReason := .unspecified }] }

def geminiStopItem : GeminiItem :=
  .nextEvent { candidates := [{ parts := [.text "!"], finishReason := .stop }] }

def c3GeminiState : GeminiState :=
  { iterOpen := true, done := false, accumulatedText := ""
    accumulatedToolCalls := [c3EmittedCall] }

def c3GeminiStopEvent : GeminiEvent :=
  { candidates := [{ parts := [], finishReason := .stop }] }

/-- An argument fragment of a single tool call: all fragments of the
call carry the same id, type and function name. -/
def mkFragment (i ty n g : String) : OpenAIDeltaToolCall :=
  { id := i, type := ty, function := { name := n, arguments := g } }

/-- OpenAI wrapper state with exactly one open buffer entry, aliased by
the current pointer — the state after the opening fragment(s) of a
single in-progress call. -/
def singleBufState (i ty n a : String) : OpenAIWrapperState :=
  { currentToolCall := some { id := i, type := ty, function := { name := n, arguments := a } }
    toolCallBuffer := [(i, { id := i, type := ty, function := { name := n, arguments := a } })] }

def stringsConcat : List String → String
  | [] => ""
  | s :: ss => s ++ stringsConcat ss

def parisFragment1 : OpenAIDeltaToolCall :=
  mkFragment "call_1" "function" "get_weather" "\x7b\"location\""

def parisFragment2 : OpenAIDeltaToolCall :=
  mkFragment "call_1" "function" "get_weather" ": \"Paris\"\x7d"

def parisCall : ToolCall :=
  { id := "call_1", type := "function"
    function := { name := "get_weather"
                  arguments := "\x7b\"location\": \"Paris\"\x7d" } }

/-- A fragment whose arguments are the JSON literal `null` — not a JSON
object, but accepted by the Go map-unmarshal validity test. -/
def nullFragment : OpenAIDeltaToolCall :=
  mkFragment "call_9" "function" "get_weather" "null"

/-- The `OnToken` events one choice contributes in the driver loop. -/
def choiceTokenEvents (c : Choice) : List HandlerEvent :=
  if c.message.content.length > 0 then [HandlerEvent.onToken c.message.content] else []

def choicesTokenEvents : List Choice → List HandlerEvent
  | [] => []
  | c :: cs => choiceTokenEvents c ++ choicesTokenEvents cs

def respTokenEvents : List ChatCompletionResponse → List HandlerEvent
  | [] => []
  | r :: rs => choicesTokenEvents r.choices ++ respTokenEvents rs

def choicesCalls : List Choice → List ToolCall
  | [] => []
  | c :: cs => c.message.toolCalls ++ choicesCalls cs

def respsText : List ChatCompletionResponse → String
  | [] => ""
  | r :: rs => choicesText r.choices ++ respsText rs

def respsCalls : List ChatCompletionResponse → List ToolCall
  | [] => []
  | r :: rs => choicesCalls r.choices ++ respsCalls rs

def c6HelloResp : ChatCompletionResponse :=
  { id := ""
    choices := [{ index := 0
                  message := { role := "assistant", content := "Hel", toolCalls := [] }
                  finishReason := finishReasonNull }]
    usage := zeroUsage }

def c6StopChoice : Choice :=
  { index := 0
    message := { role := "assistant", content := "lo", toolCalls := [] }
    finishReason := finishReasonStop }

/-! ## Theorems -/

section Claims

/-- **C9.** For the Gemini provider binding: a request temperature
strictly greater than zero is forwarded exactly; a zero temperature is
replaced by the minimal positive float32 sentinel
(`math.SmallestNonzeroFloat32` = 2^-149), not by zero. -/
theorem c9_gemini_temperature_sentinel (t : ℚ) :
    (t > 0 → setModelConfigTemperature t = t) ∧
    (t = 0 →
      setModelConfigTemperature t = smallestNonzeroFloat32 ∧
        0 < smallestNonzeroFloat32 ∧ smallestNonzeroFloat32 ≠ 0) := by
  refine ⟨fun h => ?_, fun h => ?_⟩
  · simp [setModelConfigTemperature, h]
  · subst h
    refine ⟨by simp [setModelConfigTemperature], by norm_num [smallestNonzeroFloat32],
      by norm_num [smallestNonzeroFloat32]⟩

theorem c9_gemini_temperature_sentinel_witness :
    setModelConfigTemperature 2 = 2 ∧
      setModelConfigTemperature 0 = smallestNonzeroFloat32 :=
  ⟨(c9_gemini_temperature_sentinel 2).1 (by norm_num),
    ((c9_gemini_temperature_sentinel 0).2 rfl).1⟩

theorem convertToOpenAIMessage_isSome (m : InputMessage) :
    (convertToOpenAIMessage m).isSome = true ↔
      (m.role = roleTool → m.toolResults ≠ []) := by
  by_cases h : m.role = roleTool
  · cases htr : m.toolResults with
    | nil => simp [convertToOpenAIMessage, h, htr]
    | cons tr trs => simp [convertToOpenAIMessage, h, htr]
  · simp [convertToOpenAIMessage, h]

theorem convertToOpenAIMessages_cons (m : InputMessage) (ms : List InputMessage) :
    (convertToOpenAIMessages (m :: ms)).isSome =
      ((convertToOpenAIMessage m).isSome && (convertToOpenAIMessages ms).isSome) := by
  cases hm : convertToOpenAIMessage m <;> cases hms : convertToOpenAIMessages ms <;>
    simp [convertToOpenAIMessages, hm, hms]

theorem convertToOpenAIMessages_isSome (msgs : List InputMessage) :
    (convertToOpenAIMessages msgs).isSome = true ↔
      ∀ m ∈ msgs, m.role = roleTool → m.toolResults ≠ [] := by
  induction msgs with
  | nil => simp [convertToOpenAIMessages]
  | cons m ms ih =>
    rw [convertToOpenAIMessages_cons]
    simp [Bool.and_eq_true, ih, convertToOpenAIMessage_isSome, List.forall_mem_cons]

/-- **C10.** The OpenAI message converter is total exactly when every
tool-role input message carries at least one `ToolResult` (an empty
`ToolResults` makes the unconditional `ToolResults[0]` index out of
bounds, a Go panic); for a tool-role message with results, the vendor
message's `Content` is the first result's `Result` and its
`ToolCallID` is the first result's `ToolCallID`. -/
theorem c10_openai_tool_message_precondition (msgs : List InputMessage) :
    ((convertToOpenAIMessages msgs).isSome = true ↔
      ∀ m ∈ msgs, m.role = roleTool → m.toolResults ≠ []) ∧
    (∀ (m : InputMessage) (tr : ToolResult) (trs : List ToolResult),
      m.role = roleTool → m.toolResults = tr :: trs →
      convertToOpenAIMessage m =
        some { role := "tool", content := tr.result, toolCallID := tr.toolCallID
               multiContent := [], toolCalls := [] }) := by
  refine ⟨convertToOpenAIMessages_isSome msgs, fun m tr trs hrole hres => ?_⟩
  simp [convertToOpenAIMessage, hrole, hres, convertRoleToOpenAI, roleTool, roleUser,
    roleAssistant]

theorem c10_openai_tool_message_precondition_witness :
    (convertToOpenAIMessages [c10ToolMessage]).isSome = true ∧
    ¬((convertToOpenAIMessages [c10EmptyToolMessage]).isSome = true) ∧
    convertToOpenAIMessage c10ToolMessage =
      some { role := "tool", content := "15 degrees", toolCallID := "123"
             multiContent := [], toolCalls := [] } := by
  refine ⟨(c10_openai_tool_message_precondition [c10ToolMessage]).1.mpr ?_, ?_, ?_⟩
  · intro m hm _
    simp only [List.mem_singleton] at hm
    subst hm
    simp [c10ToolMessage]
  · intro h
    have := (c10_openai_tool_message_precondition [c10EmptyToolMessage]).1.mp h
      c10EmptyToolMessage (by simp) (by simp [c10EmptyToolMessage, roleTool])
    simp [c10EmptyToolMessage] at this
  · exact (c10_openai_tool_message_precondition []).2 c10ToolMessage _ [] rfl rfl

/-- **C8.** The in-repo stream wrappers' `Close` is idempotent and
non-panicking: Gemini and Ollama `Close` return `nil` from any state
(in particular twice in a row and after an `EndOfStream` `Recv`);
Claude `Close` returns `nil` and closes its channels at most once
(states reachable for the Claude wrapper have the channels open unless
`done` is set, since only `Close` itself closes them).  The OpenAI
wrapper's `Close` merely delegates to the vendor SDK stream, which the
spec places out of scope. -/
theorem c8_close_idempotent :
    (∀ s : GeminiState,
      (geminiClose s).2 = none ∧ (geminiClose (geminiClose s).1).2 = none ∧
        (geminiRecvItem (geminiClose s).1 GeminiItem.iterDone).2 = RecvOut.eof) ∧
    (∀ s : OllamaStreamState,
      (ollamaClose s).2 = none ∧ (ollamaClose (ollamaClose s).1).2 = none ∧
        (ollamaRecv (ollamaClose s).1 OllamaInput.chanClosed).2 = RecvOut.eof) ∧
    (∀ s : ClaudeWrapperState,
      s.done = true ∨ (s.eventsOpen = true ∧ s.errOpen = true) →
      ∃ s', claudeClose s = some (s', none) ∧ claudeClose s' = some (s', none)) := by
  refine ⟨fun s => ⟨rfl, rfl, by simp [geminiClose, geminiRecvItem]⟩,
    fun s => ⟨rfl, rfl, by simp [ollamaClose, ollamaRecv]⟩, fun s h => ?_⟩
  rcases h with hdone | ⟨he, herr⟩
  · exact ⟨s, by simp [claudeClose, hdone], by simp [claudeClose, hdone]⟩
  · by_cases hdone : s.done = true
    · exact ⟨s, by simp [claudeClose, hdone], by simp [claudeClose, hdone]⟩
    · refine ⟨{ done := true, eventsOpen := false, errOpen := false, cancelled := true },
        ?_, ?_⟩
      · simp [claudeClose, closeChan, he, herr, hdone]
      · simp [claudeClose]

theorem c8_close_idempotent_witness :
    (geminiClose initGeminiState).2 = none ∧
    (ollamaClose initOllamaStreamState).2 = none ∧
    ∃ s', claudeClose initClaudeWrapperState = some (s', none) ∧
      claudeClose s' = some (s', none) :=
  ⟨(c8_close_idempotent.1 initGeminiState).1,
    (c8_close_idempotent.2.1 initOllamaStreamState).1,
    c8_close_idempotent.2.2 initClaudeWrapperState (Or.inr ⟨rfl, rfl⟩)⟩

/-- **C7 counterexample.** The Ollama provider performs no model
validation: for a model outside every known set, both the
non-streaming and the streaming entry point proceed to issue the
request (the streaming one returns a stream handle), with no
"unsupported model" error. -/
theorem c7_counterexample :
    ollamaCreateChatCompletionGate unknownModelRequest = CreateResult.issued ∧
    ollamaCreateChatCompletionStreamGate unknownModelRequest = CreateResult.issued ∧
    openAIIsSupported unknownModelRequest.model = false ∧
    geminiIsSupported unknownModelRequest.model = false ∧
    claudeIsSupported unknownModelRequest.model = false := by
  refine ⟨rfl, rfl, by decide, by decide, by decide⟩

/-- **C7 (amended).** The OpenAI, Gemini and Claude providers reject a
request model outside their own known set with an "unsupported model"
error before issuing any network call, on both the non-streaming and
the streaming path; the Ollama provider performs no such check. -/
theorem c7_model_allow_list (req : ChatCompletionRequest) :
    (openAIIsSupported req.model = false →
      openAICreateChatCompletionGate req =
          .failure ("model " ++ req.model ++ " is not available") ∧
        openAICreateChatCompletionStreamGate req =
          .failure ("model " ++ req.model ++ " is not available")) ∧
    (geminiIsSupported req.model = false →
      geminiCreateChatCompletionGate req =
          .failure ("model " ++ req.model ++ " is not supported") ∧
        geminiCreateChatCompletionStreamGate req =
          .failure ("model " ++ req.model ++ " is not supported")) ∧
    (claudeIsSupported req.model = false →
      claudeCreateChatCompletionGate req =
          .failure ("model " ++ req.model ++ " is not available") ∧
        claudeCreateChatCompletionStreamGate req =
          .failure ("model " ++ req.model ++ " is not available")) := by
  refine ⟨fun h => ?_, fun h => ?_, fun h => ?_⟩
  · exact ⟨by simp [openAICreateChatCompletionGate, h],
      by simp [openAICreateChatCompletionStreamGate, h]⟩
  · exact ⟨by simp [geminiCreateChatCompletionGate, h],
      by simp [geminiCreateChatCompletionStreamGate, h]⟩
  · exact ⟨by simp [claudeCreateChatCompletionGate, h],
      by simp [claudeCreateChatCompletionStreamGate, h]⟩

theorem c7_model_allow_list_witness :
    openAICreateChatCompletionStreamGate unknownModelRequest =
      .failure "model unknown-model-xyz is not available" ∧
    geminiCreateChatCompletionStreamGate unknownModelRequest =
      .failure "model unknown-model-xyz is not supported" ∧
    claudeCreateChatCompletionStreamGate unknownModelRequest =
      .failure "model unknown-model-xyz is not available" :=
  ⟨((c7_model_allow_list unknownModelRequest).1 (by decide)).2,
    ((c7_model_allow_list unknownModelRequest).2.1 (by decide)).2,
    ((c7_model_allow_list unknownModelRequest).2.2 (by decide)).2⟩

/-- **C4 counterexample.** The Ollama completion path maps the
unrecognized vendor done-reason `"tool_use"` silently to canonical
`stop` — no reported error — contradicting the claim that an unknown
vendor finish value is never silently coerced to `stop`. -/
theorem c4_counterexample :
    ollamaDoneReasonToFinishReason "tool_use" = finishReasonStop ∧
    "tool_use" ≠ "stop" ∧ "tool_use" ≠ "length" := by
  refine ⟨rfl, by decide, by decide⟩

/-- **C4 (amended).** Only the OpenAI finish-reason mapper reports an
error identifying a vendor value outside its known set; the Ollama
completion path coerces any unknown done-reason to `stop`, and the
Claude mapper passes the raw vendor value through unchanged (neither
an error nor a canonical value). -/
theorem c4_unknown_finish_reason (reason : String) :
    (reason ≠ "tool_calls" → reason ≠ "stop" → reason ≠ "length" →
      reason ≠ "function_call" → reason ≠ "content_filter" → reason ≠ "null" →
      reason ≠ "" →
      convertFromOpenAIFinishReason reason =
        .error ("default case reason: " ++ reason)) ∧
    (reason ≠ "stop" → reason ≠ "length" →
      ollamaDoneReasonToFinishReason reason = finishReasonStop) ∧
    (reason ≠ "end_turn" → reason ≠ "tool_use" → reason ≠ "max_tokens" →
      reason ≠ "stop_sequence" →
      convertFromClaudeFinishReason reason = reason) := by
  refine ⟨fun h1 h2 h3 h4 h5 h6 h7 => ?_, fun h1 h2 => ?_, fun h1 h2 h3 h4 => ?_⟩
  · simp [convertFromOpenAIFinishReason, h1, h2, h3, h4, h5, h6, h7]
  · simp [ollamaDoneReasonToFinishReason, h1, h2]
  · simp [convertFromClaudeFinishReason, h1, h2, h3, h4]

theorem c4_unknown_finish_reason_witness :
    convertFromOpenAIFinishReason "banana" =
      .error "default case reason: banana" ∧
    ollamaDoneReasonToFinishReason "banana" = finishReasonStop ∧
    convertFromClaudeFinishReason "banana" = "banana" :=
  ⟨(c4_unknown_finish_reason "banana").1 (by decide) (by decide) (by decide)
      (by decide) (by decide) (by decide) (by decide),
    (c4_unknown_finish_reason "banana").2.1 (by decide) (by decide),
    (c4_unknown_finish_reason "banana").2.2 (by decide) (by decide) (by decide)
      (by decide)⟩

theorem string_length_pos (s : String) (h : s ≠ "") : 0 < s.length := by
  cases s with
  | mk l =>
    cases l with
    | nil => exact absurd rfl h
    | cons c cs => simp [String.length]

theorem stringDropChars_append (a b : String) : stringDropChars (a ++ b) a.length = b := by
  have h1 : (a ++ b).data = a.data ++ b.data := by simp
  have h2 : a.length = a.data.length := rfl
  unfold stringDropChars
  rw [h1, h2, List.drop_left]

theorem gemini_delta_eq_newText (a n : String) :
    (if (a ++ n).length > a.length then stringDropChars (a ++ n) a.length else "") = n := by
  by_cases hn : n = ""
  · subst hn; simp
  · have hpos : 0 < n.length := string_length_pos n hn
    rw [if_pos (by simp only [String.length_append]; omega)]
    exact stringDropChars_append a n

theorem gemini_delta_eq_newText_pos (a n : String) :
    (if 0 < n.length then stringDropChars (a ++ n) a.length else "") = n := by
  by_cases hn : n = ""
  · subst hn; simp
  · rw [if_pos (string_length_pos n hn)]
    exact stringDropChars_append a n

theorem geminiFinish_known (raw : GenaiFinishReason) (calls : List ToolCall)
    (h : raw.known = true) :
    ∃ fr dn, geminiFinish raw calls = .normal fr dn := by
  cases raw with
  | stop =>
    by_cases hc : calls.length > 0
    · exact ⟨finishReasonToolCalls, true, by simp [geminiFinish, hc]⟩
    · exact ⟨finishReasonStop, true, by simp [geminiFinish, hc]⟩
  | safety => exact ⟨finishReasonStop, true, rfl⟩
  | maxTokens => exact ⟨finishReasonMaxTokens, true, rfl⟩
  | unspecified => exact ⟨finishReasonNull, false, rfl⟩
  | other n => simp [GenaiFinishReason.known] at h

theorem geminiRun_text (s : GeminiState) (items : List GeminiItem)
    (h : ∀ it ∈ items, geminiItemOk it = true) :
    (geminiRun s items).1.accumulatedText =
      s.accumulatedText ++ concatDeltas (geminiRun s items).2 := by
  induction items generalizing s with
  | nil => simp [geminiRun, concatDeltas]
  | cons it its ih =>
    have hit : geminiItemOk it = true := h it (by simp)
    have hits : ∀ x ∈ its, geminiItemOk x = true := fun x hx => h x (by simp [hx])
    by_cases hd : s.done
    · simp only [geminiRun, geminiRecvItem, hd, if_true]
      simp [concatDeltas, deltaText, ih s hits]
    · rw [Bool.not_eq_true] at hd
      cases it with
      | iterDone =>
        simp only [geminiRun, geminiRecvItem, hd]
        simp [concatDeltas, deltaText, ih s hits]
      | iterFail e =>
        simp only [geminiRun, geminiRecvItem, hd]
        simp [concatDeltas, deltaText, ih s hits]
      | nextEvent ev =>
        cases hev : ev.candidates with
        | nil =>
          simp only [geminiRun, geminiRecvItem, hd, hev]
          simp [concatDeltas, deltaText, geminiEmptyDelta, choicesText, ih s hits]
        | cons cand cs =>
          have hknown : cand.finishReason.known = true := by
            simpa [geminiItemOk, hev] using hit
          obtain ⟨fr, dn, hf⟩ := geminiFinish_known cand.finishReason
            (geminiMergeCalls s.accumulatedToolCalls (geminiNewToolCalls cand.parts)).2 hknown
          simp only [geminiRun, geminiRecvItem, hd, hev, hf]
          simp only [Bool.false_eq_true, if_false]
          simp [concatDeltas, deltaText, choicesText, gemini_delta_eq_newText,
            gemini_delta_eq_newText_pos, ih _ hits, String.append_assoc]

/-- **C1.** For every finite sequence of vendor stream events fed to
the Gemini stream wrapper's `Recv` (none of which hits the panicking
unknown-finish-reason branch), the in-order concatenation of the delta
contents of all emitted responses equals the final accumulated full
text — no gaps, no duplicated characters; and a vendor event with no
candidates yields the empty delta (empty content, no tool calls,
`finishReason` null) with no error and no state change. -/
theorem c1_gemini_delta_reconstitution :
    (∀ items : List GeminiItem, (∀ it ∈ items, geminiItemOk it = true) →
      concatDeltas (geminiRun initGeminiState items).2 =
        (geminiRun initGeminiState items).1.accumulatedText) ∧
    (∀ (s : GeminiState) (ev : GeminiEvent), s.done = false → ev.candidates = [] →
      geminiRecvItem s (.nextEvent ev) = (s, .ok geminiEmptyDelta) ∧
      geminiEmptyDelta =
        { id := ""
          choices := [{ index := 0
                        message := { role := roleAssistant, content := "", toolCalls := [] }
                        finishReason := finishReasonNull }]
          usage := zeroUsage }) := by
  constructor
  · intro items h
    have hrun := geminiRun_text initGeminiState items h
    simpa [initGeminiState] using hrun.symm
  · intro s ev hd hc
    exact ⟨by simp [geminiRecvItem, hd, hc], rfl⟩

theorem c1_gemini_delta_reconstitution_witness :
    concatDeltas (geminiRun initGeminiState [geminiHelloItem, geminiStopItem]).2 =
      (geminiRun initGeminiState [geminiHelloItem, geminiStopItem]).1.accumulatedText ∧
    geminiRecvItem initGeminiState (.nextEvent { candidates := [] }) =
      (initGeminiState, .ok geminiEmptyDelta) :=
  ⟨c1_gemini_delta_reconstitution.1 [geminiHelloItem, geminiStopItem] (by decide),
    (c1_gemini_delta_reconstitution.2 initGeminiState { candidates := [] } rfl rfl).1⟩

/-- Explicit form of `geminiRecvItem` on an event with candidates, once
the finish-reason outcome is known. -/
theorem geminiRecvItem_eq (s : GeminiState) (ev : GeminiEvent)
    (cand : GeminiCandidate) (cs : List GeminiCandidate)
    (fr : FinishReason) (dn : Bool)
    (hd : s.done = false) (hev : ev.candidates = cand :: cs)
    (hf : geminiFinish cand.finishReason
      (geminiMergeCalls s.accumulatedToolCalls (geminiNewToolCalls cand.parts)).2 =
        .normal fr dn) :
    geminiRecvItem s (.nextEvent ev) =
      ({ s with
          accumulatedText := s.accumulatedText ++ geminiNewText cand.parts
          accumulatedToolCalls :=
            (geminiMergeCalls s.accumulatedToolCalls (geminiNewToolCalls cand.parts)).2
          done := dn },
        .ok { id := ""
              choices := [{ index := 0
                            message :=
                              { role := roleAssistant
                                content :=
                                  if (s.accumulatedText ++ geminiNewText cand.parts).length >
                                      s.accumulatedText.length then
                                    stringDropChars
                                      (s.accumulatedText ++ geminiNewText cand.parts)
                                      s.accumulatedText.length
                                  else ""
                                toolCalls :=
                                  (geminiMergeCalls s.accumulatedToolCalls
                                    (geminiNewToolCalls cand.parts)).1 }
                            finishReason := fr }]
              usage := zeroUsage }) := by
  simp [geminiRecvItem, hd, hev, hf]

theorem geminiMergeStep_foldl_sub (news : List ToolCall)
    (init : List ToolCall × List ToolCall) :
    ∃ l, (news.foldl geminiMergeStep init).2 = init.2 ++ l := by
  induction news generalizing init with
  | nil => exact ⟨[], by simp⟩
  | cons tc rest ih =>
    simp only [List.foldl_cons]
    by_cases hnew :
        (!init.2.any (fun e =>
          e.function.name = tc.function.name &&
            e.function.arguments = tc.function.arguments)) = true
    · obtain ⟨l, hl⟩ := ih (init.1 ++ [tc], init.2 ++ [tc])
      exact ⟨[tc] ++ l, by simp [geminiMergeStep, hnew, hl]⟩
    · obtain ⟨l, hl⟩ := ih init
      exact ⟨l, by simp only [geminiMergeStep, if_neg hnew]; exact hl⟩

theorem geminiMergeCalls_keeps (accum news : List ToolCall) (h : accum ≠ []) :
    (geminiMergeCalls accum news).2.length > 0 := by
  obtain ⟨l, hl⟩ := geminiMergeStep_foldl_sub news ([], accum)
  rw [geminiMergeCalls, hl]
  cases accum with
  | nil => exact absurd rfl h
  | cons a as => simp

/-- **C3 counterexample.** The OpenAI stream normalizer applies no
stop→tool_calls override: a turn whose first chunk completes a tool
call (`get_weather` with full JSON arguments, so the accumulated
tool-call set of the turn is non-empty) and whose second chunk carries
the plain vendor finish signal `"stop"` is reported with canonical
finish reason `stop`, not `tool_calls`. -/
theorem c3_counterexample :
    (openAIRecvChunk initOpenAIWrapperState c3Chunk1).2 =
      .ok { id := "r1"
            choices := [{ index := 0
                          message := { role := "assistant", content := ""
                                       toolCalls := [c3EmittedCall] }
                          finishReason := finishReasonNull }]
            usage := zeroUsage } ∧
    (openAIRecvChunk (openAIRecvChunk initOpenAIWrapperState c3Chunk1).1 c3Chunk2).2 =
      .ok { id := "r1"
            choices := [{ index := 0
                          message := { role := "", content := "", toolCalls := [] }
                          finishReason := finishReasonStop }]
            usage := zeroUsage } ∧
    finishReasonStop ≠ finishReasonToolCalls := by
  refine ⟨rfl, rfl, by decide⟩

/-- **C3 (amended).** The Gemini stream normalizer implements the
override: on a turn event whose raw vendor finish signal is a plain
`stop` while the accumulated tool-call set is non-empty, the reported
canonical finish reason of the terminating delta is `tool_calls`, not
`stop`.  (The OpenAI normalizer maps the vendor finish reason directly,
with no such override — see the counterexample.) -/
theorem c3_stop_override_gemini (s : GeminiState) (ev : GeminiEvent)
    (cand : GeminiCandidate) (cs : List GeminiCandidate)
    (hd : s.done = false) (hev : ev.candidates = cand :: cs)
    (hfr : cand.finishReason = .stop)
    (hcalls : s.accumulatedToolCalls ≠ []) :
    ∃ s' r, geminiRecvItem s (.nextEvent ev) = (s', RecvOut.ok r) ∧
      ∃ c, r.choices = [c] ∧ c.finishReason = finishReasonToolCalls := by
  have hlen := geminiMergeCalls_keeps s.accumulatedToolCalls
    (geminiNewToolCalls cand.parts) hcalls
  have hfin : geminiFinish cand.finishReason
      (geminiMergeCalls s.accumulatedToolCalls (geminiNewToolCalls cand.parts)).2 =
      .normal finishReasonToolCalls true := by
    rw [hfr]
    simp [geminiFinish, hlen]
  exact ⟨_, _, geminiRecvItem_eq s ev cand cs finishReasonToolCalls true hd hev hfin,
    _, rfl, rfl⟩

theorem c3_stop_override_gemini_witness :
    ∃ s' r, geminiRecvItem c3GeminiState (.nextEvent c3GeminiStopEvent) =
        (s', RecvOut.ok r) ∧
      ∃ c, r.choices = [c] ∧ c.finishReason = finishReasonToolCalls :=
  c3_stop_override_gemini c3GeminiState c3GeminiStopEvent
    { parts := [], finishReason := .stop } [] rfl rfl rfl (by decide)

theorem geminiRecv_done (s : GeminiState) (it : GeminiItem) (hd : s.done = true) :
    geminiRecvItem s it = (s, .eof) := by
  simp [geminiRecvItem, hd]

theorem geminiRecv_nonterminal (s : GeminiState) (it : GeminiItem)
    (hd : s.done = false) (hnt : geminiNonterminalOk it = true) :
    ∃ s' r, geminiRecvItem s it = (s', RecvOut.ok r) ∧ s'.done = false ∧
      ∀ c ∈ r.choices, c.finishReason = finishReasonNull := by
  cases it with
  | iterDone => simp [geminiNonterminalOk] at hnt
  | iterFail e => simp [geminiNonterminalOk] at hnt
  | nextEvent ev =>
    cases hev : ev.candidates with
    | nil =>
      refine ⟨s, geminiEmptyDelta, by simp [geminiRecvItem, hd, hev], hd, ?_⟩
      simp [geminiEmptyDelta]
    | cons cand cs =>
      have hu : cand.finishReason = .unspecified := by
        have := hnt
        simp only [geminiNonterminalOk, hev] at this
        cases hfr : cand.finishReason <;> simp [hfr] at this
        all_goals rfl
      have hfin : geminiFinish cand.finishReason
          (geminiMergeCalls s.accumulatedToolCalls (geminiNewToolCalls cand.parts)).2 =
          .normal finishReasonNull false := by
        rw [hu]; rfl
      refine ⟨_, _, geminiRecvItem_eq s ev cand cs finishReasonNull false hd hev hfin,
        rfl, ?_⟩
      intro c hc
      simp only [List.mem_singleton] at hc
      subst hc
      rfl

theorem geminiRecv_terminal (s : GeminiState) (t : GeminiItem)
    (hd : s.done = false) (ht : geminiTerminalEvent t = true) :
    ∃ s' r c, geminiRecvItem s t = (s', RecvOut.ok r) ∧ s'.done = true ∧
      r.choices = [c] ∧ c.finishReason ≠ finishReasonNull := by
  cases t with
  | iterDone => simp [geminiTerminalEvent] at ht
  | iterFail e => simp [geminiTerminalEvent] at ht
  | nextEvent ev =>
    cases hev : ev.candidates with
    | nil => simp [geminiTerminalEvent, hev] at ht
    | cons cand cs =>
      have hterm : cand.finishReason = .stop ∨ cand.finishReason = .safety ∨
          cand.finishReason = .maxTokens := by
        have := ht
        simp only [geminiTerminalEvent, hev] at this
        cases hfr : cand.finishReason <;> simp [hfr] at this <;> simp
      obtain ⟨fr, hfin, hfr_ne⟩ :
          ∃ fr, geminiFinish cand.finishReason
            (geminiMergeCalls s.accumulatedToolCalls (geminiNewToolCalls cand.parts)).2 =
              .normal fr true ∧ fr ≠ finishReasonNull := by
        rcases hterm with h | h | h
        · by_cases hc :
              (geminiMergeCalls s.accumulatedToolCalls
                (geminiNewToolCalls cand.parts)).2.length > 0
          · exact ⟨finishReasonToolCalls, by simp [geminiFinish, h, hc], by decide⟩
          · exact ⟨finishReasonStop, by simp [geminiFinish, h, hc], by decide⟩
        · exact ⟨finishReasonStop, by simp [geminiFinish, h], by decide⟩
        · exact ⟨finishReasonMaxTokens, by simp [geminiFinish, h], by decide⟩
      exact ⟨_, _, _, geminiRecvItem_eq s ev cand cs fr true hd hev hfin, rfl, rfl,
        hfr_ne⟩

theorem geminiRun_temporal (s : GeminiState) (hs : s.done = false)
    (pre : List GeminiItem) (t : GeminiItem) (post : List GeminiItem)
    (hpre : ∀ it ∈ pre, geminiNonterminalOk it = true)
    (ht : geminiTerminalEvent t = true) :
    (∀ j, j < pre.length →
      ∃ r, ((geminiRun s (pre ++ t :: post)).2).get? j = some (RecvOut.ok r) ∧
        ∀ c ∈ r.choices, c.finishReason = finishReasonNull) ∧
    (∃ r c, ((geminiRun s (pre ++ t :: post)).2).get? pre.length = some (RecvOut.ok r) ∧
      r.choices = [c] ∧ c.finishReason ≠ finishReasonNull) ∧
    (∀ p ps, post = p :: ps →
      ((geminiRun s (pre ++ t :: post)).2).get? (pre.length + 1) = some RecvOut.eof) := by
  induction pre generalizing s with
  | nil =>
    obtain ⟨s', r, c, hstep, hdone, hch, hfr⟩ := geminiRecv_terminal s t hs ht
    refine ⟨fun j hj => absurd hj (by simp), ⟨r, c, ?_, hch, hfr⟩, fun p ps hpost => ?_⟩
    · simp [geminiRun, hstep]
    · subst hpost
      simp [geminiRun, hstep, geminiRecv_done s' p hdone]
  | cons it pre' ih =>
    obtain ⟨s₁, r₁, hstep, hd₁, hnull⟩ := geminiRecv_nonterminal s it hs (hpre it (by simp))
    have hpre' : ∀ x ∈ pre', geminiNonterminalOk x = true :=
      fun x hx => hpre x (by simp [hx])
    have IH := ih s₁ hd₁ hpre'
    refine ⟨fun j hj => ?_, ?_, fun p ps hpost => ?_⟩
    · cases j with
      | zero => exact ⟨r₁, by simp [geminiRun, hstep], hnull⟩
      | succ j' =>
        obtain ⟨r, hg, hn⟩ := IH.1 j' (by simpa using hj)
        exact ⟨r, by simpa [geminiRun, hstep] using hg, hn⟩
    · obtain ⟨r, c, hg, hch, hfr⟩ := IH.2.1
      exact ⟨r, c, by simpa [geminiRun, hstep] using hg, hch, hfr⟩
    · have := IH.2.2 p ps hpost
      simpa [geminiRun, hstep] using this

/-- **C5 counterexample.** A complete Ollama turn whose final vendor
event carries `Done = true` but empty content: `Recv` returns the zero
`ChatCompletionResponse` (no choices, hence no finish reason at all)
and the stream then ends with `EndOfStream` when the worker closes the
channel — no delta of this successfully completed turn ever carries a
non-null finish reason, contradicting the claim for the Ollama
provider. -/
theorem c5_counterexample :
    (ollamaRun initOllamaStreamState
      [OllamaInput.chanItem c5FinalOllamaEvent, OllamaInput.chanClosed]).2 =
      [RecvOut.ok ollamaEmptyResponse, RecvOut.eof] ∧
    c5FinalOllamaEvent.done = true ∧
    ollamaEmptyResponse.choices = [] := by
  refine ⟨by decide, rfl, rfl⟩

/-- **C5 (amended).** For the Gemini stream wrapper, on a turn made of
non-terminal events followed by a terminal vendor event: every delta
before the terminating one carries finishReason null, the terminating
delta carries a non-null finishReason, and the `Recv` call immediately
following the terminating delta returns `EndOfStream`.  (Ollama
violates this when its final event has empty content, and the Claude
wrapper emits no terminating delta at all — see the counterexample.) -/
theorem c5_terminating_delta_gemini
    (pre : List GeminiItem) (t : GeminiItem) (post : List GeminiItem)
    (hpre : ∀ it ∈ pre, geminiNonterminalOk it = true)
    (ht : geminiTerminalEvent t = true) :
    (∀ j, j < pre.length →
      ∃ r, ((geminiRun initGeminiState (pre ++ t :: post)).2).get? j =
          some (RecvOut.ok r) ∧
        ∀ c ∈ r.choices, c.finishReason = finishReasonNull) ∧
    (∃ r c, ((geminiRun initGeminiState (pre ++ t :: post)).2).get? pre.length =
        some (RecvOut.ok r) ∧
      r.choices = [c] ∧ c.finishReason ≠ finishReasonNull) ∧
    (∀ p ps, post = p :: ps →
      ((geminiRun initGeminiState (pre ++ t :: post)).2).get? (pre.length + 1) =
        some RecvOut.eof) :=
  geminiRun_temporal initGeminiState rfl pre t post hpre ht

theorem c5_terminating_delta_gemini_witness :
    (∃ r, ((geminiRun initGeminiState
        [geminiHelloItem, geminiStopItem, GeminiItem.iterDone]).2).get? 0 =
          some (RecvOut.ok r) ∧
        ∀ c ∈ r.choices, c.finishReason = finishReasonNull) ∧
    (∃ r c, ((geminiRun initGeminiState
        [geminiHelloItem, geminiStopItem, GeminiItem.iterDone]).2).get? 1 =
          some (RecvOut.ok r) ∧
        r.choices = [c] ∧ c.finishReason ≠ finishReasonNull) ∧
    ((geminiRun initGeminiState
        [geminiHelloItem, geminiStopItem, GeminiItem.iterDone]).2).get? 2 =
      some RecvOut.eof := by
  have h := c5_terminating_delta_gemini [geminiHelloItem] geminiStopItem
    [GeminiItem.iterDone] (by decide) (by decide)
  exact ⟨h.1 0 (by simp), h.2.1, h.2.2 GeminiItem.iterDone [] rfl⟩

theorem processDeltaToolCall_existing (i ty n a g : String) (hg : g ≠ "") :
    processDeltaToolCall (singleBufState i ty n a) (mkFragment i ty n g) =
      if isValidJSON (a ++ g) then
        (initOpenAIWrapperState,
          [{ id := i, type := ty, function := { name := n, arguments := a ++ g } }])
      else (singleBufState i ty n (a ++ g), []) := by
  by_cases hn : n = ""
  · subst hn
    simp [processDeltaToolCall, mkFragment, singleBufState, bufLookup, openAIAccumulate,
      bufSet, bufRemove, syncCurrent, initOpenAIWrapperState, hg]
  · simp [processDeltaToolCall, mkFragment, singleBufState, bufLookup, openAIAccumulate,
      bufSet, bufRemove, syncCurrent, initOpenAIWrapperState, hg, hn]

theorem processDeltaToolCall_first (i ty n g : String) (hi : i ≠ "") :
    processDeltaToolCall initOpenAIWrapperState (mkFragment i ty n g) =
      processDeltaToolCall (singleBufState i ty n "") (mkFragment i ty n g) := by
  simp [processDeltaToolCall, mkFragment, initOpenAIWrapperState, bufLookup, hi,
    singleBufState, bufSet]

theorem runFragments_append (st : OpenAIWrapperState)
    (fs1 fs2 : List OpenAIDeltaToolCall) :
    runFragments st (fs1 ++ fs2) =
      ((runFragments (runFragments st fs1).1 fs2).1,
        (runFragments st fs1).2 ++ (runFragments (runFragments st fs1).1 fs2).2) := by
  induction fs1 generalizing st with
  | nil => simp [runFragments]
  | cons f fs ih => simp [runFragments, ih]

theorem runFragments_noEmit (i ty n : String) (gs : List String) (a : String)
    (hg : ∀ g ∈ gs, g ≠ "")
    (hv : ∀ j, j < gs.length →
      isValidJSON (a ++ stringsConcat (gs.take (j + 1))) = false) :
    runFragments (singleBufState i ty n a) (gs.map (mkFragment i ty n)) =
      (singleBufState i ty n (a ++ stringsConcat gs), List.replicate gs.length []) := by
  induction gs generalizing a with
  | nil => simp [runFragments, stringsConcat]
  | cons g gs' ih =>
    have hg0 : g ≠ "" := hg g (by simp)
    have hv0 : isValidJSON (a ++ g) = false := by
      have h := hv 0 (by simp)
      simpa [stringsConcat] using h
    have hv' : ∀ j, j < gs'.length →
        isValidJSON ((a ++ g) ++ stringsConcat (gs'.take (j + 1))) = false := by
      intro j hj
      have h := hv (j + 1) (by simp; omega)
      simpa [stringsConcat, List.take_succ_cons, String.append_assoc] using h
    have ih' := ih (a ++ g) (fun x hx => hg x (by simp [hx])) hv'
    rw [List.map_cons]
    simp only [runFragments]
    rw [processDeltaToolCall_existing i ty n a g hg0, if_neg (by simp [hv0])]
    simp only [ih']
    simp [stringsConcat, String.append_assoc, List.replicate_succ]

theorem runFragments_complete (i ty n : String) (gs : List String) (gl : String)
    (a : String)
    (hg : ∀ g ∈ gs, g ≠ "") (hgl : gl ≠ "")
    (hv : ∀ j, j < gs.length →
      isValidJSON (a ++ stringsConcat (gs.take (j + 1))) = false)
    (hvl : isValidJSON (a ++ stringsConcat gs ++ gl) = true) :
    runFragments (singleBufState i ty n a) ((gs ++ [gl]).map (mkFragment i ty n)) =
      (initOpenAIWrapperState,
        List.replicate gs.length [] ++
          [[{ id := i, type := ty
              function := { name := n, arguments := a ++ stringsConcat gs ++ gl } }]]) := by
  rw [List.map_append, runFragments_append, runFragments_noEmit i ty n gs a hg hv]
  simp only [List.map_cons, List.map_nil, runFragments]
  rw [processDeltaToolCall_existing i ty n (a ++ stringsConcat gs) gl hgl,
    if_pos (by simp [hvl])]

/-- **C2 counterexample.** Feeding the single fragment `null` for a
fresh call id: the accumulated `argumentsJSON` is `null`, which does
not parse as a JSON object, yet the normalizer emits a completed call
(Go's `json.Unmarshal` into a map accepts the JSON literal `null` with
a nil error), contradicting the claim that no completed call is
emitted while the buffer does not parse as a JSON object. -/
theorem c2_counterexample :
    processDeltaToolCall initOpenAIWrapperState nullFragment =
      (initOpenAIWrapperState,
        [{ id := "call_9", type := "function"
           function := { name := "get_weather", arguments := "null" } }]) ∧
    specParsesAsJSONObject "null" = false ∧
    isValidJSON "null" = true := by
  refine ⟨by decide, by decide, by decide⟩

/-- **C2 (amended).** For the OpenAI stream normalizer processing the
argument fragments of a single tool call (same call id on every
fragment): after each append the accumulated `argumentsJSON` is tested
with the code's validity check (successful Go unmarshal into a JSON
map, which accepts a JSON object — and also the literal `null`); while
the test fails no completed call is emitted; on the first append after
which it passes, exactly one completed call carrying the accumulated
arguments is emitted in that delta's `toolCalls` and its buffer entry
and current pointer are cleared.  In particular the two Paris fragments
behave exactly as the claim states. -/
theorem c2_tool_call_buffering :
    (∀ (i ty n : String) (gs : List String) (gl : String),
      i ≠ "" → (∀ g ∈ gs, g ≠ "") → gl ≠ "" →
      (∀ j, j < gs.length → isValidJSON (stringsConcat (gs.take (j + 1))) = false) →
      isValidJSON (stringsConcat gs ++ gl) = true →
      runFragments initOpenAIWrapperState ((gs ++ [gl]).map (mkFragment i ty n)) =
        (initOpenAIWrapperState,
          List.replicate gs.length [] ++
            [[{ id := i, type := ty
                function := { name := n, arguments := stringsConcat gs ++ gl } }]])) ∧
    (runFragments initOpenAIWrapperState [parisFragment1, parisFragment2] =
        (initOpenAIWrapperState, [[], [parisCall]]) ∧
      isValidJSON "\x7b\"location\"" = false ∧
      isValidJSON "\x7b\"location\": \"Paris\"\x7d" = true) := by
  constructor
  · intro i ty n gs gl hi hg hgl hv hvl
    have step1 : runFragments initOpenAIWrapperState
        ((gs ++ [gl]).map (mkFragment i ty n)) =
        runFragments (singleBufState i ty n "") ((gs ++ [gl]).map (mkFragment i ty n)) := by
      cases gs with
      | nil =>
        simp only [List.nil_append, List.map_cons, List.map_nil, runFragments]
        rw [processDeltaToolCall_first i ty n gl hi]
      | cons g gs' =>
        simp only [List.cons_append, List.map_cons, runFragments]
        rw [processDeltaToolCall_first i ty n g hi]
    rw [step1, runFragments_complete i ty n gs gl "" hg hgl
      (by intro j hj; simpa using hv j hj) (by simpa using hvl)]
    simp
  · refine ⟨by decide, by decide, by decide⟩

theorem c2_tool_call_buffering_witness :
    runFragments initOpenAIWrapperState
        ((["\x7b\"location\""] ++ [": \"Paris\"\x7d"]).map
          (mkFragment "call_1" "function" "get_weather")) =
      (initOpenAIWrapperState,
        List.replicate (["\x7b\"location\""] : List String).length [] ++
          [[{ id := "call_1", type := "function"
              function := { name := "get_weather"
                            arguments :=
                              stringsConcat ["\x7b\"location\""] ++ ": \"Paris\"\x7d" } }]]) :=
  c2_tool_call_buffering.1 "call_1" "function" "get_weather"
    ["\x7b\"location\""] ": \"Paris\"\x7d" (by decide) (by decide) (by decide)
    (fun j hj => by
      have h0 : j = 0 := by simpa using hj
      subst h0
      decide)
    (by decide)

theorem driveLoop_ok (acc : String) (tcs : List ToolCall) (r : ChatCompletionResponse)
    (rest : List RecvOut) :
    driveLoop acc tcs (RecvOut.ok r :: rest) =
      match processChunkChoices acc tcs r.choices with
      | none => none
      | some (_, _, evs, true) => some (evs ++ [HandlerEvent.closed])
      | some (a, t, evs, false) =>
        match driveLoop a t rest with
        | none => none
        | some evs' => some (evs ++ evs') := rfl

theorem processChunkChoices_cons (acc : String) (tcs : List ToolCall) (c : Choice)
    (cs : List Choice) (hc : c.finishReason = finishReasonNull) :
    processChunkChoices acc tcs (c :: cs) =
      match processChunkChoices (acc ++ c.message.content)
          (tcs ++ c.message.toolCalls) cs with
      | none => none
      | some (a, t, evs, fin) => some (a, t, choiceTokenEvents c ++ evs, fin) := by
  have hne : ¬(c.finishReason = finishReasonToolCalls) := by rw [hc]; decide
  simp only [processChunkChoices, if_neg hne, if_pos hc]
  by_cases hcnt : c.message.content = ""
  · simp [hcnt, choiceTokenEvents]
  · have hpos := string_length_pos _ hcnt
    simp [choiceTokenEvents, hpos]

theorem processChunkChoices_null (l : List Choice) (acc : String) (tcs : List ToolCall)
    (h : ∀ c ∈ l, c.finishReason = finishReasonNull) :
    processChunkChoices acc tcs l =
      some (acc ++ choicesText l, tcs ++ choicesCalls l, choicesTokenEvents l, false) := by
  induction l generalizing acc tcs with
  | nil => simp [processChunkChoices, choicesText, choicesCalls, choicesTokenEvents]
  | cons c cs ih =>
    rw [processChunkChoices_cons acc tcs c cs (h c (by simp)),
      ih _ _ (fun x hx => h x (by simp [hx]))]
    simp [choicesText, choicesCalls, choicesTokenEvents, String.append_assoc,
      List.append_assoc]

theorem driveLoop_ok_null (acc : String) (tcs : List ToolCall)
    (r : ChatCompletionResponse) (rest : List RecvOut)
    (h : ∀ c ∈ r.choices, c.finishReason = finishReasonNull) :
    driveLoop acc tcs (RecvOut.ok r :: rest) =
      match driveLoop (acc ++ choicesText r.choices) (tcs ++ choicesCalls r.choices)
          rest with
      | none => none
      | some evs' => some (choicesTokenEvents r.choices ++ evs') := by
  rw [driveLoop_ok, processChunkChoices_null r.choices acc tcs h]

theorem driveLoop_nullChunks (rs : List ChatCompletionResponse) (rest : List RecvOut)
    (acc : String) (tcs : List ToolCall)
    (h : ∀ r ∈ rs, ∀ c ∈ r.choices, c.finishReason = finishReasonNull) :
    driveLoop acc tcs (rs.map RecvOut.ok ++ rest) =
      (driveLoop (acc ++ respsText rs) (tcs ++ respsCalls rs) rest).map
        (fun evs => respTokenEvents rs ++ evs) := by
  induction rs generalizing acc tcs with
  | nil =>
    simp only [List.map_nil, List.nil_append, respsText, respsCalls, respTokenEvents]
    cases hdl : driveLoop acc tcs rest with
    | none => simp [hdl]
    | some evs => simp [hdl]
  | cons r rs' ih =>
    rw [List.map_cons, List.cons_append,
      driveLoop_ok_null acc tcs r _ (h r (by simp)),
      ih _ _ (fun x hx => h x (by simp [hx]))]
    cases hdl : driveLoop (acc ++ choicesText r.choices ++ respsText rs')
        (tcs ++ choicesCalls r.choices ++ respsCalls rs') rest with
    | none =>
      rw [String.append_assoc, List.append_assoc] at hdl
      simp [respsText, respsCalls, respTokenEvents, hdl, String.append_assoc,
        List.append_assoc]
    | some evs =>
      rw [String.append_assoc, List.append_assoc] at hdl
      simp [respsText, respsCalls, respTokenEvents, hdl, String.append_assoc,
        List.append_assoc]

theorem processChunkChoices_final_stop (acc : String) (tcs : List ToolCall) (fc : Choice)
    (h1 : fc.finishReason ≠ finishReasonToolCalls)
    (h2 : fc.finishReason ≠ finishReasonNull) :
    processChunkChoices acc tcs [fc] =
      some (acc ++ fc.message.content, tcs ++ fc.message.toolCalls,
        choiceTokenEvents fc ++
          [HandlerEvent.onComplete
            { role := "assistant", content := acc ++ fc.message.content
              toolCalls := tcs ++ fc.message.toolCalls }], true) := by
  simp only [processChunkChoices, if_neg h1, if_neg h2]
  by_cases hcnt : fc.message.content = ""
  · simp [choiceTokenEvents, hcnt]
  · have hpos := string_length_pos _ hcnt
    simp [choiceTokenEvents, hpos]

theorem processChunkChoices_final_toolcalls (acc : String) (tcs : List ToolCall)
    (fc : Choice) (lastCall : ToolCall)
    (h1 : fc.finishReason = finishReasonToolCalls)
    (hl : (tcs ++ fc.message.toolCalls).getLast? = some lastCall) :
    processChunkChoices acc tcs [fc] =
      some (acc ++ fc.message.content, tcs ++ fc.message.toolCalls,
        choiceTokenEvents fc ++
          [HandlerEvent.onToolCall lastCall,
            HandlerEvent.onComplete
              { role := "assistant", content := acc ++ fc.message.content
                toolCalls := tcs ++ fc.message.toolCalls }], true) := by
  simp only [processChunkChoices, if_pos h1]
  rw [hl]
  by_cases hcnt : fc.message.content = ""
  · simp [choiceTokenEvents, hcnt]
  · have hpos := string_length_pos _ hcnt
    simp [choiceTokenEvents, hpos]

/-- **C6.** For `StreamChatCompletion` draining a normalized stream:
`OnStart` fires exactly once, before any receive; each delta choice
with non-empty text fires `OnToken` with exactly that text and is
appended to the full-text accumulator; delta tool calls are appended
to a running list; the first delta choice with a non-null finish
reason fires `OnComplete` with the accumulated text and all
accumulated tool calls and stops pumping (later results are never
consumed); a `tool_calls` finish additionally fires `OnToolCall` with
the most recently appended call first; a receive error other than
`EndOfStream` fires `OnError` and stops; `EndOfStream` just stops; and
the deferred `stream.Close()` runs on every exit path (the final
`closed` event). -/
theorem c6_stream_consumer :
    (∀ (pres : List ChatCompletionResponse) (cid : String) (u : Usage) (fc : Choice)
        (rest : List RecvOut),
      (∀ r ∈ pres, ∀ c ∈ r.choices, c.finishReason = finishReasonNull) →
      fc.finishReason ≠ finishReasonNull → fc.finishReason ≠ finishReasonToolCalls →
      streamChatCompletionTrace
          (pres.map RecvOut.ok ++ RecvOut.ok ⟨cid, [fc], u⟩ :: rest) =
        some (HandlerEvent.onStart ::
          (respTokenEvents pres ++
            (choiceTokenEvents fc ++
              [HandlerEvent.onComplete
                  { role := "assistant"
                    content := respsText pres ++ fc.message.content
                    toolCalls := respsCalls pres ++ fc.message.toolCalls },
                HandlerEvent.closed])))) ∧
    (∀ (pres : List ChatCompletionResponse) (cid : String) (u : Usage) (fc : Choice)
        (lastCall : ToolCall) (rest : List RecvOut),
      (∀ r ∈ pres, ∀ c ∈ r.choices, c.finishReason = finishReasonNull) →
      fc.finishReason = finishReasonToolCalls →
      (respsCalls pres ++ fc.message.toolCalls).getLast? = some lastCall →
      streamChatCompletionTrace
          (pres.map RecvOut.ok ++ RecvOut.ok ⟨cid, [fc], u⟩ :: rest) =
        some (HandlerEvent.onStart ::
          (respTokenEvents pres ++
            (choiceTokenEvents fc ++
              [HandlerEvent.onToolCall lastCall,
                HandlerEvent.onComplete
                  { role := "assistant"
                    content := respsText pres ++ fc.message.content
                    toolCalls := respsCalls pres ++ fc.message.toolCalls },
                HandlerEvent.closed])))) ∧
    (∀ (pres : List ChatCompletionResponse) (e : String) (rest : List RecvOut),
      (∀ r ∈ pres, ∀ c ∈ r.choices, c.finishReason = finishReasonNull) →
      streamChatCompletionTrace (pres.map RecvOut.ok ++ RecvOut.fail e :: rest) =
        some (HandlerEvent.onStart ::
          (respTokenEvents pres ++ [HandlerEvent.onError e, HandlerEvent.closed]))) ∧
    (∀ (pres : List ChatCompletionResponse) (rest : List RecvOut),
      (∀ r ∈ pres, ∀ c ∈ r.choices, c.finishReason = finishReasonNull) →
      streamChatCompletionTrace (pres.map RecvOut.ok ++ RecvOut.eof :: rest) =
        some (HandlerEvent.onStart ::
          (respTokenEvents pres ++ [HandlerEvent.closed]))) := by
  refine ⟨?_, ?_, ?_, ?_⟩
  · intro pres cid u fc rest hnull hne hnt
    simp only [streamChatCompletionTrace]
    rw [driveLoop_nullChunks pres _ "" [] hnull, driveLoop_ok,
      show ({ id := cid, choices := [fc], usage := u } : ChatCompletionResponse).choices =
        [fc] from rfl,
      processChunkChoices_final_stop _ _ fc hnt hne]
    simp
  · intro pres cid u fc lastCall rest hnull hfr hlast
    simp only [streamChatCompletionTrace]
    rw [driveLoop_nullChunks pres _ "" [] hnull, driveLoop_ok,
      show ({ id := cid, choices := [fc], usage := u } : ChatCompletionResponse).choices =
        [fc] from rfl,
      processChunkChoices_final_toolcalls _ _ fc lastCall hfr (by simpa using hlast)]
    simp
  · intro pres e rest hnull
    simp only [streamChatCompletionTrace]
    rw [driveLoop_nullChunks pres _ "" [] hnull]
    simp [driveLoop]
  · intro pres rest hnull
    simp only [streamChatCompletionTrace]
    rw [driveLoop_nullChunks pres _ "" [] hnull]
    simp [driveLoop]

theorem c6_stream_consumer_witness :
    streamChatCompletionTrace
        ([c6HelloResp].map RecvOut.ok ++
          RecvOut.ok ⟨"", [c6StopChoice], zeroUsage⟩ :: []) =
      some (HandlerEvent.onStart ::
        (respTokenEvents [c6HelloResp] ++
          (choiceTokenEvents c6StopChoice ++
            [HandlerEvent.onComplete
                { role := "assistant"
                  content := respsText [c6HelloResp] ++ c6StopChoice.message.content
                  toolCalls := respsCalls [c6HelloResp] ++ c6StopChoice.message.toolCalls },
              HandlerEvent.closed]))) :=
  c6_stream_consumer.1 [c6HelloResp] "" zeroUsage c6StopChoice []
    (by decide) (by decide) (by decide)

end Claims

end LLMSpec
